import Mathlib

/-!
Shallow embedding of the etcd-recovery orchestrator (github.com/vmware/etcd-recovery)
together with proofs about the properties its specification states.

Conventions used throughout:
* Go strings are Lean `String`s; the Go standard-library helpers the code calls
  (`strings.Contains`, `strings.HasPrefix`, `strings.TrimSpace`, `sort.Strings`,
  `fmt.Sprintf("%x", n)`, `strconv.FormatUint(n, 10)`) are re-implemented below over
  `List Char`, so that every definition reduces inside `decide`/`rfl`.
* Remote effects (running a command, uploading/downloading a file, the etcdctl
  calls) are modelled by explicit environments supplying each call site's result,
  and by effect traces listing the remote operations a run performs.
* Machine integers (`uint64` member IDs, exit codes) are modelled as `Nat`/`Int`;
  none of the modelled code paths can overflow them.
-/

namespace EtcdRecovery

/-- Models Go `strings.Contains s sub`: `sub` occurs as a contiguous substring of `s`.
`strings.Contains s "" = true`, matched by `List.isPrefixOf [] _ = true`. -/
def charListContains (s sub : List Char) : Bool :=
  match s with
  | [] => sub.isEmpty
  | _ :: rest => sub.isPrefixOf s || charListContains rest sub

/-- Go `strings.Contains` on `String`. -/
def strContains (s sub : String) : Bool :=
  charListContains s.toList sub.toList

/-- Go `strings.HasPrefix s pre`. -/
def strStartsWith (s pre : String) : Bool :=
  pre.toList.isPrefixOf s.toList

/-- Go `strings.TrimSpace`: drops whitespace from both ends. -/
def strTrimSpace (s : String) : String :=
  ⟨(((s.toList.dropWhile Char.isWhitespace).reverse.dropWhile Char.isWhitespace).reverse)⟩

/-- Go `strconv.FormatUint n 10` (also what `%d` prints for a `uint64`). -/
def natToDec (n : Nat) : String :=
  Nat.repr n

/-- Go `fmt.Sprintf("%x", n)` for a `uint64`: lowercase hexadecimal, no padding. -/
def natToHex (n : Nat) : String :=
  ⟨Nat.toDigits 16 n⟩

/-! ## Command Task (src/pkg/task/command_task.go) -/

/-- `task.Check`: the validation constraints attached to a `CommandTask`
(`command_task.go:25`). -/
structure Check where
  expectedExitCode : Int
  expectedOutput : String
  notExpectedOutput : String
  timeoutSec : Int
  retryIntervalSec : Int
deriving DecidableEq

/-- The outcome of one `client.Run(t.Command)` call as `CommandTask.Run` classifies it
(`command_task.go:56-69`): no error, an `ssh.ExitError` carrying an exit status, or
any other error (treated as a transient execution failure). In all cases the combined
output observed is carried along. -/
inductive RunOutcome where
  | ok (out : String)
  | exitErr (out : String) (code : Int)
  | otherErr (out : String)
deriving DecidableEq

/-- The combined output of a run (Go's `out`, available in every case). -/
def RunOutcome.output : RunOutcome → String
  | .ok o => o
  | .exitErr o _ => o
  | .otherErr o => o

/-- The three validation checks of `CommandTask.Run` (`command_task.go:73-91`),
applied to the extracted exit code and the combined output: expected exit code,
expected substring (skipped when unset), forbidden substring (skipped when unset).
With no `Check`, validation passes vacuously. -/
def checkValidates (check : Option Check) (exitCode : Int) (out : String) : Bool :=
  match check with
  | none => true
  | some c =>
    (exitCode == c.expectedExitCode) &&
      (c.expectedOutput == "" || strContains out c.expectedOutput) &&
      (c.notExpectedOutput == "" || !strContains out c.notExpectedOutput)

/-- One iteration of the retry loop in `CommandTask.Run` (`command_task.go:55-96`):
`some out` when the iteration returns successfully with combined output `out`,
`none` when it records a failure and retries.  A non-exit error fails before any
validation (line 61-67); an exit error contributes its status as the exit code but
— whether or not validation passes — fails the final `err == nil && out != ""`
success test at line 93, so only an error-free run can succeed. -/
def commandAttempt (check : Option Check) (r : RunOutcome) : Option String :=
  match r with
  | .otherErr _ => none
  | .exitErr _ _ => none
  | .ok out => if checkValidates check 0 out && (out != "") then some out else none

/-- The success predicate exactly as the specification words it (spec §4.2 / claim C1):
the exit code matches, the expected substring is present when set, the forbidden
substring is absent when set, and the output is non-empty.  This definition follows
the spec, not the source, and is compared against `commandAttempt`. -/
def specAttemptSuccess (c : Check) (exitCode : Int) (out : String) : Prop :=
  exitCode = c.expectedExitCode ∧
    (c.expectedOutput ≠ "" → strContains out c.expectedOutput = true) ∧
    (c.notExpectedOutput ≠ "" → strContains out c.notExpectedOutput = false) ∧
    out ≠ ""

/-- A concrete check expecting exit code 2, with no output constraints. -/
def cexCheckC1 : Check :=
  { expectedExitCode := 2, expectedOutput := "", notExpectedOutput := ""
    timeoutSec := 0, retryIntervalSec := 0 }

/-- C1: the claim says an attempt whose command exits with the expected non-zero
exit code (output predicates satisfied, output non-empty) succeeds.  On a check
expecting exit code 2 and a run exiting 2 with non-empty output "ok", the spec's
success predicate holds, yet `CommandTask.Run` does not treat the attempt as
successful: its success test at command_task.go:93 additionally requires the
run to have returned no error at all. -/
theorem C1_counterexample :
    specAttemptSuccess cexCheckC1 2 "ok" ∧
      commandAttempt (some cexCheckC1) (.exitErr "ok" 2) = none := by
  constructor
  · refine ⟨rfl, ?_, ?_, ?_⟩ <;> decide
  · rfl

/-- C1 (amended): a single `CommandTask` attempt with a `Check` succeeds iff the
command returned without error at all — hence with exit code 0, which must equal
the check's expected exit code — the expected substring is present when set, the
forbidden substring is absent when set, and the combined output is non-empty; on
success the combined output is returned verbatim.  In particular an attempt can
never succeed under a check whose expected exit code is non-zero. -/
theorem C1_commandAttempt_success (c : Check) (r : RunOutcome) (o : String) :
    commandAttempt (some c) r = some o ↔
      r = RunOutcome.ok o ∧ o ≠ "" ∧ c.expectedExitCode = 0 ∧
        (c.expectedOutput ≠ "" → strContains o c.expectedOutput = true) ∧
        (c.notExpectedOutput ≠ "" → strContains o c.notExpectedOutput = false) := by
  cases r with
  | otherErr out =>
    constructor
    · intro h
      exact Option.noConfusion h
    · rintro ⟨hok, -⟩
      exact RunOutcome.noConfusion hok
  | exitErr out code =>
    constructor
    · intro h
      exact Option.noConfusion h
    · rintro ⟨hok, -⟩
      exact RunOutcome.noConfusion hok
  | ok out =>
    simp only [commandAttempt, checkValidates]
    split
    · rename_i hcond
      simp only [Bool.and_eq_true, beq_iff_eq, Bool.or_eq_true, Bool.not_eq_true',
        bne_iff_ne, ne_eq] at hcond
      obtain ⟨⟨⟨hexit, hexp⟩, hnot⟩, hne⟩ := hcond
      constructor
      · intro h
        obtain rfl : out = o := by injection h
        refine ⟨rfl, hne, hexit.symm, ?_, ?_⟩
        · intro hset
          rcases hexp with h1 | h1
          · exact absurd h1 hset
          · exact h1
        · intro hset
          rcases hnot with h1 | h1
          · exact absurd h1 hset
          · exact h1
      · rintro ⟨hok, -⟩
        obtain rfl : out = o := by injection hok
        rfl
    · rename_i hcond
      constructor
      · intro h
        exact Option.noConfusion h
      · rintro ⟨hok, hne, hexit, hexp, hnot⟩
        obtain rfl : out = o := by injection hok
        refine absurd ?_ hcond
        simp only [Bool.and_eq_true, beq_iff_eq, Bool.or_eq_true, Bool.not_eq_true',
          bne_iff_ne, ne_eq]
        refine ⟨⟨⟨hexit.symm, ?_⟩, ?_⟩, hne⟩
        · by_cases hs : c.expectedOutput = ""
          · exact Or.inl hs
          · exact Or.inr (hexp hs)
        · by_cases hs : c.notExpectedOutput = ""
          · exact Or.inl hs
          · exact Or.inr (hnot hs)

/-! ## Manifest editor (src/unnamed/part_009, src/pkg/task/add_member_task.go) -/

/-- A linear order on `List Char`, standing in for the byte-wise order Go's
`sort.Strings` uses.  (Which linear order is irrelevant to every property proved
below: sorted copies of two lists coincide iff the lists are permutations.) -/
def charListLe : List Char → List Char → Bool
  | [], _ => true
  | _ :: _, [] => false
  | a :: as, b :: bs =>
    if a.toNat < b.toNat then true
    else if b.toNat < a.toNat then false
    else charListLe as bs

theorem charListLe_total (a b : List Char) : charListLe a b = true ∨ charListLe b a = true := by
  induction a generalizing b with
  | nil => exact Or.inl rfl
  | cons x xs ih =>
    cases b with
    | nil => exact Or.inr rfl
    | cons y ys =>
      simp only [charListLe]
      rcases Nat.lt_trichotomy x.toNat y.toNat with h | h | h
      · left
        simp [h]
      · have h1 : ¬ x.toNat < y.toNat := by omega
        have h2 : ¬ y.toNat < x.toNat := by omega
        simp only [h1, h2, if_false, if_true, ite_false, ite_true]
        exact ih ys
      · right
        simp [h]

theorem charEqOfToNatEq {a b : Char} (h : a.toNat = b.toNat) : a = b :=
  Char.eq_of_val_eq (UInt32.ext h)

theorem charListLe_antisymm {a b : List Char} (h1 : charListLe a b = true)
    (h2 : charListLe b a = true) : a = b := by
  induction a generalizing b with
  | nil =>
    cases b with
    | nil => rfl
    | cons y ys => simp [charListLe] at h2
  | cons x xs ih =>
    cases b with
    | nil => simp [charListLe] at h1
    | cons y ys =>
      simp only [charListLe] at h1 h2
      by_cases hxy : x.toNat < y.toNat
      · have : ¬ y.toNat < x.toNat := by omega
        simp [hxy, this] at h2
      · by_cases hyx : y.toNat < x.toNat
        · simp [hxy, hyx] at h1
        · simp only [hxy, hyx, if_false, ite_false] at h1 h2
          have hxeq : x = y := charEqOfToNatEq (by omega)
          rw [hxeq, ih h1 h2]

theorem charListLe_trans {a b c : List Char} (h1 : charListLe a b = true)
    (h2 : charListLe b c = true) : charListLe a c = true := by
  induction a generalizing b c with
  | nil => rfl
  | cons x xs ih =>
    cases b with
    | nil => simp [charListLe] at h1
    | cons y ys =>
      cases c with
      | nil => simp [charListLe] at h2
      | cons z zs =>
        simp only [charListLe] at h1 h2 ⊢
        by_cases hxy : x.toNat < y.toNat
        · by_cases hyz : y.toNat < z.toNat
          · simp [show x.toNat < z.toNat by omega]
          · by_cases hzy : z.toNat < y.toNat
            · simp [hyz, hzy] at h2
            · simp [show x.toNat < z.toNat by omega]
        · by_cases hyx : y.toNat < x.toNat
          · simp [hxy, hyx] at h1
          · have hxyeq : x.toNat = y.toNat := by omega
            by_cases hyz : y.toNat < z.toNat
            · simp [show x.toNat < z.toNat by omega]
            · by_cases hzy : z.toNat < y.toNat
              · simp [hyz, hzy] at h2
              · have h1' : charListLe xs ys = true := by simpa [hxy, hyx] using h1
                have h2' : charListLe ys zs = true := by simpa [hyz, hzy] using h2
                have : ¬ x.toNat < z.toNat := by omega
                have : ¬ z.toNat < x.toNat := by omega
                simp only [show ¬ x.toNat < z.toNat by omega,
                  show ¬ z.toNat < x.toNat by omega, if_false, ite_false]
                exact ih h1' h2'

/-- The string order used to model `sort.Strings`. -/
def strSortLe (a b : String) : Prop :=
  charListLe a.toList b.toList = true

instance : DecidableRel strSortLe :=
  fun _ _ => inferInstanceAs (Decidable (_ = true))

instance : IsTotal String strSortLe :=
  ⟨fun a b => charListLe_total a.toList b.toList⟩

instance : IsTrans String strSortLe :=
  ⟨fun _ _ _ h1 h2 => charListLe_trans h1 h2⟩

theorem stringEqOfToListEq {a b : String} (h : a.toList = b.toList) : a = b := by
  cases a
  cases b
  exact congrArg String.mk (by simpa using h)

instance : IsAntisymm String strSortLe :=
  ⟨fun _ _ h1 h2 => stringEqOfToListEq (charListLe_antisymm h1 h2)⟩

/-- Models Go `sort.Strings` (a copy of the slice, sorted). -/
def sortStrings (l : List String) : List String :=
  l.insertionSort strSortLe

/-- `compareSlice` (part_009:309-320): equal length, then equality of the
sorted copies (`slices.Equal` after `sort.Strings` on both). -/
def compareSlice (a b : List String) : Bool :=
  (a.length == b.length) && (sortStrings a == sortStrings b)

theorem compareSlice_iff_perm (a b : List String) :
    compareSlice a b = true ↔ a.Perm b := by
  constructor
  · intro h
    simp only [compareSlice, Bool.and_eq_true, beq_iff_eq] at h
    have p1 : (sortStrings a).Perm a := List.perm_insertionSort strSortLe a
    have p2 : (sortStrings b).Perm b := List.perm_insertionSort strSortLe b
    exact (h.2 ▸ p1.symm).trans p2
  · intro h
    simp only [compareSlice, Bool.and_eq_true, beq_iff_eq]
    refine ⟨h.length_eq, ?_⟩
    have p1 : (sortStrings a).Perm a := List.perm_insertionSort strSortLe a
    have p2 : (sortStrings b).Perm b := List.perm_insertionSort strSortLe b
    exact List.eq_of_perm_of_sorted ((p1.trans h).trans p2.symm)
      (List.sorted_insertionSort strSortLe a) (List.sorted_insertionSort strSortLe b)

/-- A container of a static-pod manifest: the name and the launch argument list
(`corev1.Container.Name` / `.Command`) — the only fields the editor touches. -/
structure Container where
  name : String
  command : List String
deriving DecidableEq

/-- The manifest as the editor sees it: the pod's container list
(`corev1.Pod.Spec.Containers`). -/
structure Pod where
  containers : List Container
deriving DecidableEq

/-- The new argument list `updateForceNewClusterCommand` builds (part_009:285-295):
drop every argument with prefix `--force-new-cluster`, then append the bare flag
when `add` is set. -/
def toggledCommand (add : Bool) (cmd : List String) : List String :=
  cmd.filter (fun c => !(strStartsWith c "--force-new-cluster")) ++
    (if add then ["--force-new-cluster"] else [])

/-- The loop of `updateForceNewClusterCommand` (part_009:280-301) over the container
list: skip containers whose trimmed name differs, edit the first match and stop
(`break`), report whether no container matched. -/
def toggleForceInContainers (containerName : String) (add : Bool) :
    List Container → Option (List Container × Bool)
  | [] => none
  | c :: rest =>
    if strTrimSpace c.name == containerName then
      some (⟨c.name, toggledCommand add c.command⟩ :: rest,
        !compareSlice c.command (toggledCommand add c.command))
    else
      match toggleForceInContainers containerName add rest with
      | none => none
      | some (rest2, changed) => some (c :: rest2, changed)

/-- `updateForceNewClusterCommand` (part_009:275-307). -/
def updateForceNewClusterCommand (pod : Pod) (containerName : String) (add : Bool) :
    Except String (Pod × Bool) :=
  match toggleForceInContainers containerName add pod.containers with
  | none => .error ("failed to find container name: " ++ containerName)
  | some (cs, changed) => .ok (⟨cs⟩, changed)

/-- The new argument list `updateEtcdManifestForExistingCluster` builds
(add_member_task.go:568-585): drop every argument with prefix `--initial-cluster`
or `--initial-cluster-state`, then append the non-empty replacements. -/
def rewrittenCommand (initialCluster initialClusterState : String) (cmd : List String) :
    List String :=
  cmd.filter (fun c => !(strStartsWith c "--initial-cluster") &&
      !(strStartsWith c "--initial-cluster-state")) ++
    (if initialCluster != "" then ["--initial-cluster=" ++ initialCluster] else []) ++
    (if initialClusterState != ""
      then ["--initial-cluster-state=" ++ initialClusterState] else [])

/-- The loop of `updateEtcdManifestForExistingCluster` (add_member_task.go:562-589)
over the container list: edit the first container whose trimmed name is `etcd`. -/
def rewriteInitialInContainers (initialCluster initialClusterState : String) :
    List Container → Option (List Container)
  | [] => none
  | c :: rest =>
    if strTrimSpace c.name == "etcd" then
      some (⟨c.name, rewrittenCommand initialCluster initialClusterState c.command⟩ :: rest)
    else
      match rewriteInitialInContainers initialCluster initialClusterState rest with
      | none => none
      | some rest2 => some (c :: rest2)

/-- `updateEtcdManifestForExistingCluster` (add_member_task.go:559-596). -/
def updateEtcdManifestForExistingCluster (pod : Pod)
    (initialCluster initialClusterState : String) : Except String Pod :=
  match rewriteInitialInContainers initialCluster initialClusterState pod.containers with
  | none => .error "etcd container not found in manifest"
  | some cs => .ok ⟨cs⟩

/-- The container both editors address: the first one whose trimmed name matches. -/
def firstContainer (cs : List Container) (containerName : String) : Option Container :=
  cs.find? (fun c => strTrimSpace c.name == containerName)

/-- The etcd container's argument list of a manifest (empty when there is none). -/
def etcdCommandOf (pod : Pod) : List String :=
  ((firstContainer pod.containers "etcd").map Container.command).getD []

theorem toggleForceInContainers_spec (containerName add) :
    ∀ (cs cs2 : List Container) (ch : Bool),
      toggleForceInContainers containerName add cs = some (cs2, ch) →
      ∃ c : Container, firstContainer cs containerName = some c ∧
        firstContainer cs2 containerName =
          some ⟨c.name, toggledCommand add c.command⟩ ∧
        ch = !compareSlice c.command (toggledCommand add c.command) := by
  intro cs
  induction cs with
  | nil => intro cs2 ch h; exact Option.noConfusion h
  | cons c rest ih =>
    intro cs2 ch h
    simp only [toggleForceInContainers] at h
    by_cases hname : (strTrimSpace c.name == containerName) = true
    · rw [if_pos hname] at h
      obtain ⟨rfl, rfl⟩ : (⟨c.name, toggledCommand add c.command⟩ :: rest = cs2) ∧
          (!compareSlice c.command (toggledCommand add c.command)) = ch := by
        have := Option.some.inj h
        exact ⟨congrArg Prod.fst this, congrArg Prod.snd this⟩
      refine ⟨c, ?_, ?_, rfl⟩
      · exact List.find?_cons_of_pos _ hname
      · exact List.find?_cons_of_pos _ hname
    · rw [if_neg hname] at h
      match hrec : toggleForceInContainers containerName add rest with
      | none => rw [hrec] at h; exact Option.noConfusion h
      | some (rest2, changed) =>
        rw [hrec] at h
        obtain ⟨rfl, rfl⟩ : (c :: rest2 = cs2) ∧ changed = ch := by
          have := Option.some.inj h
          exact ⟨congrArg Prod.fst this, congrArg Prod.snd this⟩
        obtain ⟨c0, h1, h2, h3⟩ := ih rest2 changed hrec
        refine ⟨c0, ?_, ?_, h3⟩
        · show List.find? (fun x => strTrimSpace x.name == containerName) (c :: rest) = some c0
          rw [@List.find?_cons_of_neg Container
            (fun x => strTrimSpace x.name == containerName) c rest hname]
          exact h1
        · show List.find? (fun x => strTrimSpace x.name == containerName) (c :: rest2) =
            some ⟨c0.name, toggledCommand add c0.command⟩
          rw [@List.find?_cons_of_neg Container
            (fun x => strTrimSpace x.name == containerName) c rest2 hname]
          exact h2

theorem rewriteInitialInContainers_spec (initialCluster initialClusterState) :
    ∀ (cs cs2 : List Container),
      rewriteInitialInContainers initialCluster initialClusterState cs = some cs2 →
      ∃ c : Container, firstContainer cs "etcd" = some c ∧
        firstContainer cs2 "etcd" =
          some ⟨c.name, rewrittenCommand initialCluster initialClusterState c.command⟩ := by
  intro cs
  induction cs with
  | nil => intro cs2 h; exact Option.noConfusion h
  | cons c rest ih =>
    intro cs2 h
    simp only [rewriteInitialInContainers] at h
    by_cases hname : (strTrimSpace c.name == "etcd") = true
    · rw [if_pos hname] at h
      obtain rfl := Option.some.inj h
      refine ⟨c, ?_, ?_⟩
      · exact List.find?_cons_of_pos _ hname
      · exact List.find?_cons_of_pos _ hname
    · rw [if_neg hname] at h
      match hrec : rewriteInitialInContainers initialCluster initialClusterState rest with
      | none => rw [hrec] at h; exact Option.noConfusion h
      | some rest2 =>
        rw [hrec] at h
        obtain rfl := Option.some.inj h
        obtain ⟨c0, h1, h2⟩ := ih rest2 hrec
        refine ⟨c0, ?_, ?_⟩
        · show List.find? (fun x => strTrimSpace x.name == "etcd") (c :: rest) = some c0
          rw [@List.find?_cons_of_neg Container
            (fun x => strTrimSpace x.name == "etcd") c rest hname]
          exact h1
        · show List.find? (fun x => strTrimSpace x.name == "etcd") (c :: rest2) =
            some ⟨c0.name, rewrittenCommand initialCluster initialClusterState c0.command⟩
          rw [@List.find?_cons_of_neg Container
            (fun x => strTrimSpace x.name == "etcd") c rest2 hname]
          exact h2

theorem strStartsWith_iff (s pre : String) :
    strStartsWith s pre = true ↔ pre.toList <+: s.toList :=
  List.isPrefixOf_iff_prefix

theorem notPrefixOfTakeNe {p s t : List Char} (hle : s.length ≤ p.length)
    (h : p.take s.length ≠ s) : ¬ p <+: (s ++ t) := by
  intro hp
  apply h
  rw [List.prefix_iff_eq_take.mp hp, List.take_take, min_eq_left hle, List.take_left]

theorem prefixOfAppendOfLe {p s t : List Char} (hp : p <+: s ++ t)
    (hle : p.length ≤ s.length) : p <+: s := by
  rw [List.prefix_iff_eq_take.mp hp, List.take_append_of_le_length hle]
  exact List.take_prefix _ _

theorem startsWithOfPrefix {a p q : String} (hpq : q.toList <+: p.toList)
    (h : strStartsWith a p = true) : strStartsWith a q = true :=
  (strStartsWith_iff a q).mpr (hpq.trans ((strStartsWith_iff a p).mp h))

theorem toListAppend (s t : String) : (s ++ t).toList = s.toList ++ t.toList :=
  String.data_append s t

theorem appendNeOfTakeNe {s u : String} (t : String) (n : Nat) (hn : n ≤ s.toList.length)
    (h : s.toList.take n ≠ u.toList.take n) : (s ++ t) ≠ u := by
  intro he
  apply h
  have h2 := congrArg String.toList he
  rw [toListAppend, ] at h2
  rw [← h2, List.take_append_of_le_length hn]

/-- A manifest whose etcd container carries `--force-new-cluster` twice. -/
def cexPodC3 : Pod :=
  ⟨[⟨"etcd", ["--force-new-cluster", "--force-new-cluster"]⟩]⟩

/-- C3: the claim asserts that after any single edit — including
`rewrite_initial_cluster` — the resulting argument list contains
`--force-new-cluster` exactly once or not at all.  On a manifest whose etcd
arguments already carry the flag twice, `updateEtcdManifestForExistingCluster`
(which only touches `--initial-cluster*` arguments) leaves both copies in place. -/
theorem C3_counterexample :
    (updateEtcdManifestForExistingCluster cexPodC3 "" "").map
      (fun p => (etcdCommandOf p).count "--force-new-cluster") = .ok 2 := rfl

theorem toggledCommand_count (add : Bool) (cmd : List String) :
    (toggledCommand add cmd).count "--force-new-cluster" = if add then 1 else 0 := by
  unfold toggledCommand
  rw [List.count_append]
  have h0 : (cmd.filter
      (fun c => !(strStartsWith c "--force-new-cluster"))).count "--force-new-cluster" = 0 := by
    rw [List.count_eq_zero]
    intro hmem
    have hf := (List.mem_filter.mp hmem).2
    rw [Bool.not_eq_true'] at hf
    have ht : strStartsWith "--force-new-cluster" "--force-new-cluster" = true := by decide
    exact Bool.noConfusion (ht.symm.trans hf)
  rw [h0]
  cases add <;> simp

theorem toggledCommand_countP_le (add : Bool) (cmd : List String) (q : String → Bool)
    (hq : q "--force-new-cluster" = false) :
    (toggledCommand add cmd).countP q ≤ cmd.countP q := by
  unfold toggledCommand
  rw [List.countP_append]
  have h1 : (cmd.filter (fun c => !(strStartsWith c "--force-new-cluster"))).countP q ≤
      cmd.countP q := by
    rw [List.countP_filter]
    exact List.countP_mono_left (fun x _ h => ((Bool.and_eq_true _ _).mp h).1)
  have h2 : (if add then ["--force-new-cluster"] else []).countP q = 0 := by
    cases add <;> simp [List.countP_cons, hq]
  omega

theorem icNotPrefixOfIcs (ics : String) :
    strStartsWith ("--initial-cluster-state=" ++ ics) "--initial-cluster=" = false := by
  by_contra h
  rw [Bool.not_eq_false] at h
  have hp := (strStartsWith_iff _ _).mp h
  rw [toListAppend] at hp
  have h2 := prefixOfAppendOfLe hp (by decide)
  exact absurd ((strStartsWith_iff "--initial-cluster-state=" "--initial-cluster=").mpr h2)
    (by decide)

theorem icsNotPrefixOfIc (ic : String) :
    strStartsWith ("--initial-cluster=" ++ ic) "--initial-cluster-state=" = false := by
  by_contra h
  rw [Bool.not_eq_false] at h
  have hp := (strStartsWith_iff _ _).mp h
  rw [toListAppend] at hp
  exact notPrefixOfTakeNe (by decide) (by decide) hp

theorem icArgNeFlag (ic : String) :
    ("--initial-cluster=" ++ ic) ≠ "--force-new-cluster" :=
  appendNeOfTakeNe ic 3 (by decide) (by decide)

theorem icsArgNeFlag (ics : String) :
    ("--initial-cluster-state=" ++ ics) ≠ "--force-new-cluster" :=
  appendNeOfTakeNe ics 3 (by decide) (by decide)

theorem rewrittenCommand_countP_ic (ic ics : String) (cmd : List String) :
    (rewrittenCommand ic ics cmd).countP
      (fun a => strStartsWith a "--initial-cluster=") ≤ 1 := by
  unfold rewrittenCommand
  rw [List.countP_append, List.countP_append]
  have h0 : (cmd.filter (fun c => !(strStartsWith c "--initial-cluster") &&
      !(strStartsWith c "--initial-cluster-state"))).countP
        (fun a => strStartsWith a "--initial-cluster=") = 0 := by
    rw [List.countP_eq_zero]
    intro a hmem hq
    have hf := ((Bool.and_eq_true _ _).mp (List.mem_filter.mp hmem).2).1
    rw [Bool.not_eq_true'] at hf
    have hg : strStartsWith a "--initial-cluster" = true := startsWithOfPrefix (by decide) hq
    exact Bool.noConfusion (hg.symm.trans hf)
  have h1 : (if ic != "" then ["--initial-cluster=" ++ ic] else []).countP
      (fun a => strStartsWith a "--initial-cluster=") ≤ 1 := by
    split
    · exact le_trans (List.countP_le_length _) (by simp)
    · simp
  have h2 : (if ics != "" then ["--initial-cluster-state=" ++ ics] else []).countP
      (fun a => strStartsWith a "--initial-cluster=") = 0 := by
    split
    · simp [List.countP_cons, icNotPrefixOfIcs]
    · simp
  omega

theorem rewrittenCommand_countP_ics (ic ics : String) (cmd : List String) :
    (rewrittenCommand ic ics cmd).countP
      (fun a => strStartsWith a "--initial-cluster-state=") ≤ 1 := by
  unfold rewrittenCommand
  rw [List.countP_append, List.countP_append]
  have h0 : (cmd.filter (fun c => !(strStartsWith c "--initial-cluster") &&
      !(strStartsWith c "--initial-cluster-state"))).countP
        (fun a => strStartsWith a "--initial-cluster-state=") = 0 := by
    rw [List.countP_eq_zero]
    intro a hmem hq
    have hf := ((Bool.and_eq_true _ _).mp (List.mem_filter.mp hmem).2).2
    rw [Bool.not_eq_true'] at hf
    have hg : strStartsWith a "--initial-cluster-state" = true :=
      startsWithOfPrefix (by decide) hq
    exact Bool.noConfusion (hg.symm.trans hf)
  have h1 : (if ic != "" then ["--initial-cluster=" ++ ic] else []).countP
      (fun a => strStartsWith a "--initial-cluster-state=") = 0 := by
    split
    · simp [List.countP_cons, icsNotPrefixOfIc]
    · simp
  have h2 : (if ics != "" then ["--initial-cluster-state=" ++ ics] else []).countP
      (fun a => strStartsWith a "--initial-cluster-state=") ≤ 1 := by
    split
    · exact le_trans (List.countP_le_length _) (by simp)
    · simp
  omega

theorem rewrittenCommand_count_flag_le (ic ics : String) (cmd : List String) :
    (rewrittenCommand ic ics cmd).count "--force-new-cluster" ≤
      cmd.count "--force-new-cluster" := by
  unfold rewrittenCommand
  rw [List.count_append, List.count_append]
  have h0 : (cmd.filter (fun c => !(strStartsWith c "--initial-cluster") &&
      !(strStartsWith c "--initial-cluster-state"))).count "--force-new-cluster" ≤
        cmd.count "--force-new-cluster" :=
    (List.filter_sublist cmd).count_le "--force-new-cluster"
  have h1 : (if ic != "" then ["--initial-cluster=" ++ ic] else []).count
      "--force-new-cluster" = 0 := by
    split
    · simp [List.count_singleton, icArgNeFlag ic]
    · simp
  have h2 : (if ics != "" then ["--initial-cluster-state=" ++ ics] else []).count
      "--force-new-cluster" = 0 := by
    split
    · simp [List.count_singleton, icsArgNeFlag ics]
    · simp
  omega

theorem updateForce_ok_inv (pod : Pod) (containerName : String) (add : Bool)
    (pod2 : Pod) (ch : Bool)
    (h : updateForceNewClusterCommand pod containerName add = .ok (pod2, ch)) :
    toggleForceInContainers containerName add pod.containers = some (pod2.containers, ch) := by
  unfold updateForceNewClusterCommand at h
  cases htog : toggleForceInContainers containerName add pod.containers with
  | none => rw [htog] at h; exact Except.noConfusion h
  | some pr =>
    obtain ⟨cs, chg⟩ := pr
    rw [htog] at h
    have h2 := Except.ok.inj h
    have hpod : Pod.mk cs = pod2 := congrArg Prod.fst h2
    have hch : chg = ch := congrArg Prod.snd h2
    rw [← hpod, hch]

theorem updateInitial_ok_inv (pod : Pod) (ic ics : String) (pod2 : Pod)
    (h : updateEtcdManifestForExistingCluster pod ic ics = .ok pod2) :
    rewriteInitialInContainers ic ics pod.containers = some pod2.containers := by
  unfold updateEtcdManifestForExistingCluster at h
  cases hrw : rewriteInitialInContainers ic ics pod.containers with
  | none => rw [hrw] at h; exact Except.noConfusion h
  | some cs =>
    rw [hrw] at h
    rw [← Except.ok.inj h]

/-- C3 (amended): each single edit unconditionally establishes the invariant clauses
for the flags it manages — after `toggle_force_new_cluster` the etcd arguments
contain `--force-new-cluster` exactly once (add=true) or not at all (add=false);
after `rewrite_initial_cluster` at most one argument starts with
`--initial-cluster=` and at most one with `--initial-cluster-state=` — and each
edit preserves the remaining clauses whenever the input manifest already satisfied
them.  (Unconditionally for the unmanaged flags the claim is false, see the
counterexample.) -/
theorem C3_edit_flag_invariant (pod : Pod) (add : Bool) (ic ics : String) :
    (∀ pod2 ch, updateForceNewClusterCommand pod "etcd" add = .ok (pod2, ch) →
      ((etcdCommandOf pod2).count "--force-new-cluster" = if add then 1 else 0) ∧
      ((etcdCommandOf pod).countP (fun a => strStartsWith a "--initial-cluster=") ≤ 1 →
        (etcdCommandOf pod2).countP (fun a => strStartsWith a "--initial-cluster=") ≤ 1) ∧
      ((etcdCommandOf pod).countP (fun a => strStartsWith a "--initial-cluster-state=") ≤ 1 →
        (etcdCommandOf pod2).countP
          (fun a => strStartsWith a "--initial-cluster-state=") ≤ 1)) ∧
    (∀ pod2, updateEtcdManifestForExistingCluster pod ic ics = .ok pod2 →
      ((etcdCommandOf pod2).countP (fun a => strStartsWith a "--initial-cluster=") ≤ 1) ∧
      ((etcdCommandOf pod2).countP (fun a => strStartsWith a "--initial-cluster-state=") ≤ 1) ∧
      ((etcdCommandOf pod).count "--force-new-cluster" ≤ 1 →
        (etcdCommandOf pod2).count "--force-new-cluster" ≤ 1)) := by
  constructor
  · intro pod2 ch h
    have htog := updateForce_ok_inv pod "etcd" add pod2 ch h
    obtain ⟨c0, h1, h2, h3⟩ := toggleForceInContainers_spec "etcd" add
      pod.containers pod2.containers ch htog
    have e1 : etcdCommandOf pod = c0.command := by
      simp [etcdCommandOf, h1]
    have e2 : etcdCommandOf pod2 = toggledCommand add c0.command := by
      simp [etcdCommandOf, h2]
    rw [e1, e2]
    refine ⟨toggledCommand_count add c0.command, ?_, ?_⟩
    · intro hpre
      exact le_trans (toggledCommand_countP_le add c0.command _ (by decide)) hpre
    · intro hpre
      exact le_trans (toggledCommand_countP_le add c0.command _ (by decide)) hpre
  · intro pod2 h
    have hrw := updateInitial_ok_inv pod ic ics pod2 h
    obtain ⟨c0, h1, h2⟩ := rewriteInitialInContainers_spec ic ics
      pod.containers pod2.containers hrw
    have e1 : etcdCommandOf pod = c0.command := by
      simp [etcdCommandOf, h1]
    have e2 : etcdCommandOf pod2 = rewrittenCommand ic ics c0.command := by
      simp [etcdCommandOf, h2]
    rw [e1, e2]
    refine ⟨rewrittenCommand_countP_ic ic ics c0.command,
      rewrittenCommand_countP_ics ic ics c0.command, ?_⟩
    intro hpre
    exact le_trans (rewrittenCommand_count_flag_le ic ics c0.command) hpre

/-- Witness for C3: a concrete manifest satisfying the invariant, both edits applied. -/
theorem C3_edit_flag_invariant_witness :
    ((etcdCommandOf ⟨[⟨"etcd", ["--a", "--force-new-cluster"]⟩]⟩).count
        "--force-new-cluster" = 1) ∧
    ((etcdCommandOf ⟨[⟨"etcd", ["--a", "--initial-cluster=x"]⟩]⟩).countP
        (fun a => strStartsWith a "--initial-cluster=") ≤ 1) := by
  have hpod : Pod.mk [⟨"etcd", ["--a"]⟩] = Pod.mk [⟨"etcd", ["--a"]⟩] := rfl
  constructor
  · have h := (C3_edit_flag_invariant ⟨[⟨"etcd", ["--a"]⟩]⟩ true "x" "existing").1
      ⟨[⟨"etcd", ["--a", "--force-new-cluster"]⟩]⟩ true (by rfl)
    exact h.1
  · have h := (C3_edit_flag_invariant ⟨[⟨"etcd", ["--a"]⟩]⟩ true "x" "").2
      ⟨[⟨"etcd", ["--a", "--initial-cluster=x"]⟩]⟩ (by rfl)
    exact h.1

theorem toggledCommand_perm_of_unique_flag (cmd : List String)
    (hcount : cmd.count "--force-new-cluster" = 1)
    (hcountP : cmd.countP (fun a => strStartsWith a "--force-new-cluster") = 1) :
    (toggledCommand true cmd).Perm cmd := by
  have hmem : "--force-new-cluster" ∈ cmd :=
    List.count_pos_iff.mp (hcount ▸ Nat.one_pos)
  have hfilter : cmd.filter (fun a => strStartsWith a "--force-new-cluster") =
      ["--force-new-cluster"] := by
    have hlen : (cmd.filter (fun a => strStartsWith a "--force-new-cluster")).length = 1 := by
      rw [← List.countP_eq_length_filter]
      exact hcountP
    obtain ⟨a, ha⟩ := List.length_eq_one.mp hlen
    have : "--force-new-cluster" ∈ cmd.filter (fun a => strStartsWith a "--force-new-cluster") :=
      List.mem_filter.mpr ⟨hmem, by decide⟩
    rw [ha] at this ⊢
    rw [List.mem_singleton.mp this]
  have hpart := List.filter_append_perm
    (fun c => !(strStartsWith c "--force-new-cluster")) cmd
  have hdn : (fun x => !(!(strStartsWith x "--force-new-cluster"))) =
      (fun x => strStartsWith x "--force-new-cluster") := by
    funext x
    exact Bool.not_not _
  rw [hdn, hfilter] at hpart
  exact hpart

/-- C4: for any manifest with an etcd container, after `toggle_force_new_cluster`
the `changed` result is true iff the multiset of the etcd container's arguments
differs before and after the edit (the comparison sorts copies of both argument
lists, so it is order-insensitive); in particular, when the arguments already
carry `--force-new-cluster` exactly once (and no other argument with that prefix),
toggling with add=true merely moves the flag to the end, and `changed` is false. -/
theorem C4_toggle_changed_iff_multiset (pod : Pod) (add : Bool) (pod2 : Pod) (ch : Bool)
    (h : updateForceNewClusterCommand pod "etcd" add = .ok (pod2, ch)) :
    (ch = true ↔
      (etcdCommandOf pod : Multiset String) ≠ (etcdCommandOf pod2 : Multiset String)) ∧
    (add = true →
      (etcdCommandOf pod).count "--force-new-cluster" = 1 →
      (etcdCommandOf pod).countP (fun a => strStartsWith a "--force-new-cluster") = 1 →
      ch = false) := by
  have htog := updateForce_ok_inv pod "etcd" add pod2 ch h
  obtain ⟨c0, h1, h2, h3⟩ := toggleForceInContainers_spec "etcd" add
    pod.containers pod2.containers ch htog
  have e1 : etcdCommandOf pod = c0.command := by
    simp [etcdCommandOf, h1]
  have e2 : etcdCommandOf pod2 = toggledCommand add c0.command := by
    simp [etcdCommandOf, h2]
  rw [e1, e2]
  constructor
  · rw [h3, Bool.not_eq_true', ne_eq, Multiset.coe_eq_coe, ← compareSlice_iff_perm]
    rw [Bool.not_eq_true]
  · intro hadd hcount hcountP
    rw [h3, Bool.not_eq_false']
    rw [hadd]
    exact (compareSlice_iff_perm _ _).mpr
      (toggledCommand_perm_of_unique_flag c0.command hcount hcountP).symm

/-- Witness for C4: a manifest already carrying the flag once; toggling with
add=true reorders the arguments but reports `changed=false`. -/
theorem C4_toggle_changed_iff_multiset_witness :
    updateForceNewClusterCommand ⟨[⟨"etcd", ["--force-new-cluster", "--a"]⟩]⟩ "etcd" true =
      .ok (⟨[⟨"etcd", ["--a", "--force-new-cluster"]⟩]⟩, false) ∧ (false = false) := by
  constructor
  · rfl
  · exact (C4_toggle_changed_iff_multiset ⟨[⟨"etcd", ["--force-new-cluster", "--a"]⟩]⟩ true
      ⟨[⟨"etcd", ["--a", "--force-new-cluster"]⟩]⟩ false (by rfl)).2 rfl (by decide) (by decide)

/-! ## Cluster view and Create-Single-Member task (src/unnamed/part_009) -/

/-- Scans for the first `://` separator and returns what follows, the way
`url.Parse` splits scheme from the rest of a peer URL. -/
def dropThroughScheme : List Char → Option (List Char)
  | [] => none
  | ':' :: '/' :: '/' :: rest => some rest
  | _ :: rest => dropThroughScheme rest

/-- `extractIPFromPeerURL` (add_member_task.go:286-293): models
`url.Parse(rawURL)` + `.Hostname()` on the `scheme://host:port/...` shapes etcd
peer URLs take — the host part between `://` and the next `:` or `/`.  A raw
string without a scheme separator yields `""` (as does the Go code's error path,
which logs and returns `""`). -/
def extractIPFromPeerURL (raw : String) : String :=
  match dropThroughScheme raw.toList with
  | some rest => ⟨rest.takeWhile (fun c => c != ':' && c != '/')⟩
  | none => ""

/-- An etcd cluster member as `clientv3.MemberListResponse` carries it:
numeric 64-bit ID, declared name (empty for an added-but-never-started learner),
peer URLs and the learner flag. -/
structure Member where
  id : Nat
  name : String
  peerURLs : List String
  isLearner : Bool
deriving DecidableEq

/-- The response header; `MemberId` identifies the member that served the call. -/
structure ResponseHeader where
  memberId : Nat
deriving DecidableEq

/-- A parsed `etcdctl member list -w json` response. -/
structure MemberListResponse where
  header : ResponseHeader
  members : List Member
deriving DecidableEq

/-- `isSingleMemberCluster` (part_009:231-258), given the parsed member-list
query result (`none` when the command task failed or its output did not
unmarshal — the code then returns `("", false)`).  With exactly one member it
returns that member's decimal ID and `true`; otherwise the *response header's*
member ID and `false`. -/
def isSingleMemberCluster (q : Option MemberListResponse) : String × Bool :=
  match q with
  | none => ("", false)
  | some resp =>
    match resp.members with
    | [m] => (natToDec m.id, true)
    | _ => (natToDec resp.header.memberId, false)

/-- The remote operations `CreateSingleMemberClusterTask.Run` can perform. -/
inductive CEffect where
  | waitForRunning (timeoutSec : Nat) (oldID : String)
  | memberQuery (containerID : String)
  | download (remotePath : String)
  | upload (remotePath : String)
  | healthCheck (containerID : String)
  | warnMultiMember
deriving DecidableEq

/-- Oracle results for each remote call site of `CreateSingleMemberClusterTask.Run`
(part_009:35-229), in source order.  `wait1` is the initial 15-second
wait-for-container probe (`none`/`some ""` both mean "etcd not running", as
`WaitForEtcdRunningTask.Run` returns `("", err)` on failure); the `parse*`
fields fuse the local read + `yaml.Unmarshal` of a downloaded manifest; local
marshal/write-file steps are treated as infallible. -/
structure CreateEnv where
  wait1 : Option String
  queryLive : Option MemberListResponse
  downloadLiveOk : Bool
  parseLive : Option Pod
  uploadLiveOk : Bool
  waitRestartA : Option String
  healthAOk : Bool
  queryFinalA : Option MemberListResponse
  downloadBackupOk : Bool
  parseBackup : Option Pod
  uploadForceOk : Bool
  waitStartB : Option String
  healthStartBOk : Bool
  uploadNoForceOk : Bool
  waitRestartB : Option String
  healthFinalBOk : Bool
  queryFinalB : Option MemberListResponse

/-- `CreateSingleMemberClusterTask.Run` (part_009:35-229): the result (a member ID
on success — on error paths the Go code also returns its partial `memberID`
alongside the error, which the task framework discards) together with the trace
of remote operations performed. -/
def createSingleMemberRun (backupManifest : String) (env : CreateEnv) :
    Except String String × List CEffect :=
  let oldContainerID := env.wait1.getD ""
  let eff0 := [CEffect.waitForRunning 15 ""]
  if oldContainerID != "" then
    let eff1 := eff0 ++ [CEffect.memberQuery oldContainerID]
    let q := isSingleMemberCluster env.queryLive
    if !q.2 then
      (.ok q.1, eff1 ++ [CEffect.warnMultiMember])
    else
      let eff2 := eff1 ++ [CEffect.download "/etc/kubernetes/manifests/etcd.yaml"]
      if !env.downloadLiveOk then (.error "download failed", eff2)
      else
        match env.parseLive with
        | none => (.error "unmarshal failed", eff2)
        | some pod =>
          match updateForceNewClusterCommand pod "etcd" false with
          | .error e =>
            (.error ("failed to remove --force-new-cluster flag, err: " ++ e), eff2)
          | .ok (_, isManifestChanged) =>
            if isManifestChanged then
              let eff3 := eff2 ++ [CEffect.upload "/etc/kubernetes/manifests/etcd.yaml"]
              if !env.uploadLiveOk then (.error "upload failed", eff3)
              else
                let eff4 := eff3 ++ [CEffect.waitForRunning 600 oldContainerID]
                match env.waitRestartA with
                | none => (.error "etcd did not restart", eff4)
                | some newID =>
                  let eff5 := eff4 ++ [CEffect.healthCheck newID]
                  if !env.healthAOk then (.error "etcd health check failed", eff5)
                  else
                    let eff6 := eff5 ++ [CEffect.memberQuery newID]
                    let qf := isSingleMemberCluster env.queryFinalA
                    if !qf.2 then (.error "failed to create a single-member cluster", eff6)
                    else (.ok qf.1, eff6)
            else
              let eff3 := eff2 ++ [CEffect.healthCheck oldContainerID]
              if !env.healthAOk then (.error "final etcd health check failed", eff3)
              else
                let eff4 := eff3 ++ [CEffect.memberQuery oldContainerID]
                let qf := isSingleMemberCluster env.queryFinalA
                if !qf.2 then (.error "failed to create a single-member cluster", eff4)
                else (.ok qf.1, eff4)
  else
    let effB0 := eff0 ++ [CEffect.download backupManifest]
    if !env.downloadBackupOk then (.error "failed to download backup manifest", effB0)
    else
      match env.parseBackup with
      | none => (.error "failed to unmarshal manifest", effB0)
      | some pod =>
        match updateForceNewClusterCommand pod "etcd" true with
        | .error e => (.error ("failed to add --force-new-cluster flag, err: " ++ e), effB0)
        | .ok (podWithForce, _) =>
          let effB1 := effB0 ++ [CEffect.upload "/etc/kubernetes/manifests/etcd.yaml"]
          if !env.uploadForceOk then (.error "failed to upload manifest", effB1)
          else
            let effB2 := effB1 ++ [CEffect.waitForRunning 600 ""]
            match env.waitStartB with
            | none => (.error "etcd container didn't start in time", effB2)
            | some containerID =>
              let effB3 := effB2 ++ [CEffect.healthCheck containerID]
              if !env.healthStartBOk then (.error "etcd did not become healthy", effB3)
              else
                match updateForceNewClusterCommand podWithForce "etcd" false with
                | .error e =>
                  (.error ("failed to remove --force-new-cluster flag, err: " ++ e), effB3)
                | .ok _ =>
                  let effB4 := effB3 ++ [CEffect.upload "/etc/kubernetes/manifests/etcd.yaml"]
                  if !env.uploadNoForceOk then (.error "failed to upload manifest", effB4)
                  else
                    let effB5 := effB4 ++ [CEffect.waitForRunning 600 containerID]
                    match env.waitRestartB with
                    | none => (.error "etcd did not restart", effB5)
                    | some newID =>
                      let effB6 := effB5 ++ [CEffect.healthCheck newID]
                      if !env.healthFinalBOk then
                        (.error "final etcd health check failed", effB6)
                      else
                        let effB7 := effB6 ++ [CEffect.memberQuery newID]
                        let qf := isSingleMemberCluster env.queryFinalB
                        if !qf.2 then
                          (.error "failed to create a single-member cluster", effB7)
                        else (.ok qf.1, effB7)

theorem isSingleMemberCluster_of_len_ne_one (resp : MemberListResponse)
    (h : resp.members.length ≠ 1) :
    isSingleMemberCluster (some resp) = (natToDec resp.header.memberId, false) := by
  obtain ⟨hdr, ms⟩ := resp
  cases ms with
  | nil => rfl
  | cons a rest =>
    cases rest with
    | nil => simp at h
    | cons b rest2 => rfl

/-- A member-list response with two members whose first member's ID (1) differs
from the response header's member ID (7). -/
def cexRespC2 : MemberListResponse :=
  ⟨⟨7⟩, [⟨1, "m1", ["https://10.0.0.1:2380"], false⟩,
         ⟨2, "m2", ["https://10.0.0.2:2380"], false⟩]⟩

/-- An environment where etcd is already running and the member-list query
reports the two-member cluster above. -/
def cexEnvC2 : CreateEnv :=
  { wait1 := some "c1", queryLive := some cexRespC2, downloadLiveOk := false
    parseLive := none, uploadLiveOk := false, waitRestartA := none, healthAOk := false
    queryFinalA := none, downloadBackupOk := false, parseBackup := none
    uploadForceOk := false, waitStartB := none, healthStartBOk := false
    uploadNoForceOk := false, waitRestartB := none, healthFinalBOk := false
    queryFinalB := none }

/-- C2: the claim says the task returns the *first member's* ID when the
member-list reports more than one member.  The code (`isSingleMemberCluster`,
part_009:257) returns the *response header's* member ID in that case: with
members `[1, 2]` and header member ID 7 the task returns "7", not "1". -/
theorem C2_counterexample :
    (createSingleMemberRun "/root/etcd.yaml" cexEnvC2).1 = .ok "7" ∧
      natToDec ((cexRespC2.members.headD ⟨0, "", [], false⟩).id) = "1" ∧
      ("7" : String) ≠ "1" := by
  refine ⟨rfl, rfl, by decide⟩

/-- C2 (amended): when the etcd container is already live and the member-list
query reports more than one member, `CreateSingleMemberClusterTask.Run` logs the
multi-member warning, returns (successfully) the decimal ID carried in the
member-list *response header* — the member that served the query, not
necessarily the first listed member — and performs no mutation: the trace is
exactly the initial container probe, the member-list query and the warning; in
particular it contains no download, no upload and no restart wait. -/
theorem C2_multiMember_no_mutation (backupManifest : String) (env : CreateEnv)
    (cid : String) (resp : MemberListResponse)
    (hwait : env.wait1 = some cid) (hcid : cid ≠ "")
    (hq : env.queryLive = some resp) (hlen : 1 < resp.members.length) :
    createSingleMemberRun backupManifest env =
      (.ok (natToDec resp.header.memberId),
        [CEffect.waitForRunning 15 "", CEffect.memberQuery cid,
          CEffect.warnMultiMember]) ∧
    ∀ e ∈ (createSingleMemberRun backupManifest env).2,
      (∀ p, e ≠ CEffect.download p) ∧ (∀ p, e ≠ CEffect.upload p) ∧
        (∀ t old, old ≠ "" → e ≠ CEffect.waitForRunning t old) := by
  have hbne : (cid != "") = true := bne_iff_ne.mpr hcid
  have hsingle := isSingleMemberCluster_of_len_ne_one resp (by omega)
  have hmain : createSingleMemberRun backupManifest env =
      (.ok (natToDec resp.header.memberId),
        [CEffect.waitForRunning 15 "", CEffect.memberQuery cid,
          CEffect.warnMultiMember]) := by
    simp only [createSingleMemberRun, hwait, Option.getD_some, hbne, hq, hsingle,
      if_true, Bool.not_false, List.cons_append, List.nil_append]
  refine ⟨hmain, ?_⟩
  rw [hmain]
  intro e he
  simp only [List.mem_cons, List.not_mem_nil, or_false] at he
  rcases he with rfl | rfl | rfl
  · refine ⟨fun p hp => CEffect.noConfusion hp, fun p hp => CEffect.noConfusion hp, ?_⟩
    intro t old hold hp
    injection hp with h1 h2
    exact hold h2.symm
  · exact ⟨fun p hp => CEffect.noConfusion hp, fun p hp => CEffect.noConfusion hp,
      fun t old _ hp => CEffect.noConfusion hp⟩
  · exact ⟨fun p hp => CEffect.noConfusion hp, fun p hp => CEffect.noConfusion hp,
      fun t old _ hp => CEffect.noConfusion hp⟩

/-- Witness for C2 (amended): the concrete two-member environment. -/
theorem C2_multiMember_no_mutation_witness :
    createSingleMemberRun "/root/etcd.yaml" cexEnvC2 =
      (.ok "7", [CEffect.waitForRunning 15 "", CEffect.memberQuery "c1",
        CEffect.warnMultiMember]) :=
  (C2_multiMember_no_mutation "/root/etcd.yaml" cexEnvC2 "c1" cexRespC2
    rfl (by decide) rfl (by decide)).1

/-! ## Add-Member task (src/pkg/task/add_member_task.go) -/

/-- `config.Host` (src/unnamed/part_007:18-27). -/
structure Host where
  name : String
  memberName : String
  host : String
  username : String
  password : String
  privateKey : String
  passphrase : String
  backedupManifest : String
deriving DecidableEq

/-- `AddMemberTask.isKnownHost` (add_member_task.go:160-170): some configured
host's address equals the peer URL's host. -/
def isKnownHost (allHosts : List Host) (peerURL : String) : Bool :=
  allHosts.any (fun h => h.host == extractIPFromPeerURL peerURL)

/-- `AddMemberTask.querryMember` (add_member_task.go:244-266), applied to a parsed
member list: the first member one of whose peer URLs has a non-empty host equal to
the learner's address. -/
def querryMember (learnerHost : String) (resp : MemberListResponse) : Option Member :=
  resp.members.find? (fun m => m.peerURLs.any (fun u =>
    extractIPFromPeerURL u != "" && extractIPFromPeerURL u == learnerHost))

/-- `AddMemberTask.fetchLearnerMembers` (add_member_task.go:268-282): all learners
of the member list; a failed member-list call yields the empty list. -/
def fetchLearnerMembers (resp : Option MemberListResponse) : List Member :=
  match resp with
  | none => []
  | some r => r.members.filter (fun m => m.isLearner)

/-- `AddMemberTask.removeMember` (add_member_task.go:172-184).  `exec` is the
result of the `member remove` command task; on error that task returns an empty
output string, so the `Member not found` output test (written against `out`)
can never fire — the model keeps the dead test verbatim. -/
def removeMemberModel (memberIDHex : String) (exec : Except String String) :
    Except String Unit :=
  match exec with
  | .ok _ => .ok ()
  | .error e =>
    if strContains "" "Member not found" then .ok ()
    else .error ("failed to remove member " ++ memberIDHex ++ ": " ++ e)

/-- `AddMemberTask.addMemberToCluster` (add_member_task.go:309-335).  `exec` is the
`member add … --learner -w json` command-task result (empty output on error, so
the `Peer URLs already exists` test is likewise dead in the current code);
`parsed` is the unmarshalled response's member ID. -/
def addMemberModel (learnerMemberName : String) (exec : Except String String)
    (parsed : Option Nat) : Except String Nat :=
  match exec with
  | .error e =>
    if strContains "" "Error: etcdserver: Peer URLs already exists" then .ok 0
    else .error ("failed to add member: " ++ e)
  | .ok out =>
    match parsed with
    | none => .error ("unmarshal adding learner (" ++ learnerMemberName ++
        ") response failed, output: " ++ out)
    | some id => .ok id

/-- The remote operations `AddMemberTask` issues against master and learner. -/
inductive AEffect where
  | getContainer
  | healthWait (cluster : Bool)
  | memberList
  | fetchMemberName
  | memberRemove (idHex : String)
  | memberAdd (name : String) (learner : Bool)
  | memberPromote (idHex : String)
  | startLearner
deriving DecidableEq

/-- Effects that mutate cluster membership or the learner VM (`startLearner`
wipes the learner's data directory and uploads its manifest). -/
def AEffect.mutating : AEffect → Bool
  | .memberRemove _ => true
  | .memberAdd _ _ => true
  | .memberPromote _ => true
  | .startLearner => true
  | _ => false

/-- Oracle results for the remote call sites of one `addOrPromoteLearner` pass
(add_member_task.go:75-127), in source order: the container-ID wait, the
cluster-health wait (abstracted to its overall outcome), the member list read by
`querryMember`, the learner's resolved member name (`FetchMemberName`), the
promotion loop's outcome, the member list read by `fetchLearnerMembers`, and the
`member remove` / `member add` command executions with the add-response parse. -/
structure AddEnv where
  containerID : Option String
  healthOk : Bool
  members1 : Option MemberListResponse
  learnerName : Option String
  promoteResult : Except String Unit
  members2 : Option MemberListResponse
  removeExec : Except String String
  addExec : Except String String
  addParsed : Option Nat

/-- `AddMemberTask.handleOtherLearnersIfExists` (add_member_task.go:129-158).
The Go code indexes `PeerURLs[0]` of the single other learner; the model reads
`headD ""` (the code would panic on a learner without peer URLs). -/
def handleOtherLearnersIfExists (allHosts : List Host) (env : AddEnv) :
    Except String Unit × List AEffect :=
  let eff := [AEffect.memberList]
  match fetchLearnerMembers env.members2 with
  | [] => (.ok (), eff)
  | [l] =>
    let url := l.peerURLs.headD ""
    let learnerIP := extractIPFromPeerURL url
    if isKnownHost allHosts url then
      (.error ("Another learner vm (" ++ learnerIP ++
        ") has been added but not started yet. Please add it again first."), eff)
    else
      let eff2 := eff ++ [AEffect.memberRemove (natToHex l.id)]
      match removeMemberModel (natToHex l.id) env.removeExec with
      | .ok _ => (.ok (), eff2)
      | .error e =>
        (.error ("failed to remove unknown learner " ++ natToHex l.id ++ ": " ++ e), eff2)
  | ls =>
    (.error ("found " ++ natToDec ls.length ++ " learners, expected 0 or 1"), eff)

/-- `AddMemberTask.addOrPromoteLearner` (add_member_task.go:75-127): `.ok true`
means the learner is (already) promoted, `.ok false` that a not-yet-started
learner exists or was just added. -/
def addOrPromoteLearner (learner : Host) (allHosts : List Host) (env : AddEnv) :
    Except String Bool × List AEffect :=
  let eff0 := [AEffect.getContainer]
  match env.containerID with
  | none => (.error "failed to get etcd container ID: wait for etcd container failed", eff0)
  | some _ =>
    let eff1 := eff0 ++ [AEffect.healthWait true]
    if !env.healthOk then
      (.error "cluster health check failed: cluster did not become healthy after 20 attempts",
        eff1)
    else
      let eff2 := eff1 ++ [AEffect.memberList, AEffect.fetchMemberName]
      match env.members1 with
      | none => (.error "failed to check member existence: failed to list members", eff2)
      | some resp =>
        match env.learnerName with
        | none =>
          (.error "failed to check member existence: failed to get learner member name", eff2)
        | some learnerMemberName =>
          match querryMember learner.host resp with
          | some m =>
            if m.isLearner then
              if m.name == "" then (.ok false, eff2)
              else
                let eff3 := eff2 ++ [AEffect.memberPromote (natToHex m.id)]
                match env.promoteResult with
                | .ok _ => (.ok true, eff3)
                | .error e => (.error ("failed to promote learner: " ++ e), eff3)
            else (.ok true, eff2)
          | none =>
            let hres := handleOtherLearnersIfExists allHosts env
            let eff3 := eff2 ++ hres.2
            match hres.1 with
            | .error e => (.error e, eff3)
            | .ok _ =>
              let eff4 := eff3 ++ [AEffect.memberAdd learnerMemberName true]
              match addMemberModel learnerMemberName env.addExec env.addParsed with
              | .error e =>
                (.error ("failed to add member " ++ learner.name ++ " (" ++
                  learner.host ++ "): " ++ e), eff4)
              | .ok _ => (.ok false, eff4)

/-- `AddMemberTask.Run` (add_member_task.go:38-69): a first `addOrPromoteLearner`
pass; on `.ok true` return "learner already promoted"; otherwise start the
learner (whose whole sub-procedure is abstracted to `startResult`) and run a
second pass, which must report promoted. -/
def runAddMember (learner : Host) (allHosts : List Host) (env1 : AddEnv)
    (startResult : Except String Unit) (env2 : AddEnv) :
    Except String String × List AEffect :=
  let r1 := addOrPromoteLearner learner allHosts env1
  match r1.1 with
  | .error e => (.error ("failed to add or promote learner: " ++ e), r1.2)
  | .ok true => (.ok "learner already promoted", r1.2)
  | .ok false =>
    let eff := r1.2 ++ [AEffect.startLearner]
    match startResult with
    | .error e => (.error ("failed to start learner: " ++ e), eff)
    | .ok _ =>
      let r2 := addOrPromoteLearner learner allHosts env2
      let eff2 := eff ++ r2.2
      match r2.1 with
      | .error e => (.error ("failed to promote learner after start: " ++ e), eff2)
      | .ok true => (.ok "learner added and promoted successfully", eff2)
      | .ok false => (.error "learner was not promoted after starting", eff2)

theorem addOrPromote_voter (learner : Host) (allHosts : List Host) (env : AddEnv)
    (cid : String) (resp : MemberListResponse) (nm : String) (m : Member)
    (h1 : env.containerID = some cid) (h2 : env.healthOk = true)
    (h3 : env.members1 = some resp) (h4 : env.learnerName = some nm)
    (hq : querryMember learner.host resp = some m) (hv : m.isLearner = false) :
    addOrPromoteLearner learner allHosts env =
      (.ok true, [AEffect.getContainer, AEffect.healthWait true, AEffect.memberList,
        AEffect.fetchMemberName]) := by
  simp [addOrPromoteLearner, h1, h2, h3, h4, hq, hv]

/-- C6: when the master's member list already contains a voting member
(IsLearner=false) whose peer-URL host equals the learner's address (and every
matching member is a voter, so the lookup finds that voter), `AddMemberTask.Run`
returns "learner already promoted" and issues no mutating operation: no member
add, member remove or member promote, and the start-learner sub-procedure (data
wipe + manifest upload to the learner) never runs, so the member list is left
unchanged. -/
theorem C6_already_voter_no_mutation (learner : Host) (allHosts : List Host)
    (env1 env2 : AddEnv) (startResult : Except String Unit)
    (cid : String) (resp : MemberListResponse) (nm : String)
    (h1 : env1.containerID = some cid) (h2 : env1.healthOk = true)
    (h3 : env1.members1 = some resp) (h4 : env1.learnerName = some nm)
    (h5 : ∀ m, querryMember learner.host resp = some m → m.isLearner = false)
    (h6 : ∃ m, querryMember learner.host resp = some m) :
    (runAddMember learner allHosts env1 startResult env2).1 =
      .ok "learner already promoted" ∧
    ∀ e ∈ (runAddMember learner allHosts env1 startResult env2).2,
      e.mutating = false := by
  obtain ⟨m, hq⟩ := h6
  have hv := h5 m hq
  have ha := addOrPromote_voter learner allHosts env1 cid resp nm m h1 h2 h3 h4 hq hv
  constructor
  · simp [runAddMember, ha]
  · intro e he
    simp only [runAddMember, ha] at he
    simp only [List.mem_cons, List.not_mem_nil, or_false] at he
    rcases he with rfl | rfl | rfl | rfl <;> rfl

/-- Witness member list for C6: one voting member at the learner's address. -/
def respC6 : MemberListResponse :=
  ⟨⟨1⟩, [⟨5, "m2", ["https://10.0.0.2:2380"], false⟩]⟩

/-- Witness environment for C6. -/
def envC6 : AddEnv :=
  { containerID := some "abc", healthOk := true, members1 := some respC6
    learnerName := some "m2", promoteResult := .ok (), members2 := none
    removeExec := .ok "", addExec := .ok "", addParsed := none }

/-- Witness learner host for C6. -/
def learnerC6 : Host :=
  ⟨"etcd-vm2", "m2", "10.0.0.2", "root", "pw", "", "", "/root/etcd.yaml"⟩

theorem C6_already_voter_no_mutation_witness :
    (runAddMember learnerC6 [] envC6 (.ok ()) envC6).1 = .ok "learner already promoted" := by
  have hqm : querryMember learnerC6.host respC6 =
      some ⟨5, "m2", ["https://10.0.0.2:2380"], false⟩ := rfl
  refine (C6_already_voter_no_mutation learnerC6 [] envC6 envC6 (.ok ()) "abc" respC6 "m2"
    rfl rfl rfl rfl ?_ ?_).1
  · intro m hm
    rw [hqm] at hm
    obtain rfl := Option.some.inj hm
    rfl
  · exact ⟨_, hqm⟩

theorem addOrPromote_noMatch_handle_error (learner : Host) (allHosts : List Host)
    (env : AddEnv) (cid : String) (resp : MemberListResponse) (nm : String) (e : String)
    (h1 : env.containerID = some cid) (h2 : env.healthOk = true)
    (h3 : env.members1 = some resp) (h4 : env.learnerName = some nm)
    (hq : querryMember learner.host resp = none)
    (hh : (handleOtherLearnersIfExists allHosts env).1 = .error e) :
    (addOrPromoteLearner learner allHosts env).1 = .error e := by
  simp [addOrPromoteLearner, h1, h2, h3, h4, hq, hh]

theorem addOrPromote_noMatch_handle_ok (learner : Host) (allHosts : List Host)
    (env : AddEnv) (cid : String) (resp : MemberListResponse) (nm : String)
    (h1 : env.containerID = some cid) (h2 : env.healthOk = true)
    (h3 : env.members1 = some resp) (h4 : env.learnerName = some nm)
    (hq : querryMember learner.host resp = none)
    (hh : (handleOtherLearnersIfExists allHosts env).1 = .ok ()) :
    addOrPromoteLearner learner allHosts env =
      (match addMemberModel nm env.addExec env.addParsed with
        | .error e => .error ("failed to add member " ++ learner.name ++ " (" ++
            learner.host ++ "): " ++ e)
        | .ok _ => .ok false,
       ([AEffect.getContainer, AEffect.healthWait true, AEffect.memberList,
          AEffect.fetchMemberName] ++ (handleOtherLearnersIfExists allHosts env).2) ++
         [AEffect.memberAdd nm true]) := by
  simp only [addOrPromoteLearner, h1, h2, h3, h4, hq, hh]
  cases addMemberModel nm env.addExec env.addParsed <;> simp

theorem handleOther_multi (allHosts : List Host) (env : AddEnv)
    (a b : Member) (rest : List Member)
    (hls : fetchLearnerMembers env.members2 = a :: b :: rest) :
    handleOtherLearnersIfExists allHosts env =
      (.error ("found " ++ natToDec (a :: b :: rest : List Member).length ++
        " learners, expected 0 or 1"), [AEffect.memberList]) := by
  simp only [handleOtherLearnersIfExists, hls]

theorem handleOther_one_known (allHosts : List Host) (env : AddEnv) (l : Member)
    (hls : fetchLearnerMembers env.members2 = [l])
    (hk : isKnownHost allHosts (l.peerURLs.headD "") = true) :
    handleOtherLearnersIfExists allHosts env =
      (.error ("Another learner vm (" ++ extractIPFromPeerURL (l.peerURLs.headD "") ++
        ") has been added but not started yet. Please add it again first."),
       [AEffect.memberList]) := by
  simp only [handleOtherLearnersIfExists, hls, hk, if_true]

theorem handleOther_one_unknown (allHosts : List Host) (env : AddEnv) (l : Member)
    (out : String)
    (hls : fetchLearnerMembers env.members2 = [l])
    (hk : isKnownHost allHosts (l.peerURLs.headD "") = false)
    (hrm : env.removeExec = .ok out) :
    handleOtherLearnersIfExists allHosts env =
      (.ok (), [AEffect.memberList, AEffect.memberRemove (natToHex l.id)]) := by
  simp only [handleOtherLearnersIfExists, hls, hk, Bool.false_eq_true, if_false,
    hrm, removeMemberModel, ite_false]
  rfl

/-- C5: with the target learner absent from the master's member list, the
other-learner policy of `addOrPromoteLearner` behaves as claimed: more than one
other learner fails with "found N learners, expected 0 or 1"; exactly one other
learner whose (first) peer-URL host matches a configured host's address fails
with the "Another learner vm … has been added but not started yet" error; and a
single other learner matching no configured host is removed via `member remove`,
after which the task proceeds to `member add` the target learner. -/
theorem C5_other_learner_policy (learner : Host) (allHosts : List Host) (env : AddEnv)
    (cid : String) (resp : MemberListResponse) (nm : String)
    (h1 : env.containerID = some cid) (h2 : env.healthOk = true)
    (h3 : env.members1 = some resp) (h4 : env.learnerName = some nm)
    (hq : querryMember learner.host resp = none) :
    (2 ≤ (fetchLearnerMembers env.members2).length →
      (addOrPromoteLearner learner allHosts env).1 =
        .error ("found " ++ natToDec (fetchLearnerMembers env.members2).length ++
          " learners, expected 0 or 1")) ∧
    (∀ l, fetchLearnerMembers env.members2 = [l] →
      isKnownHost allHosts (l.peerURLs.headD "") = true →
      (addOrPromoteLearner learner allHosts env).1 =
        .error ("Another learner vm (" ++ extractIPFromPeerURL (l.peerURLs.headD "") ++
          ") has been added but not started yet. Please add it again first.")) ∧
    (∀ l out, fetchLearnerMembers env.members2 = [l] →
      isKnownHost allHosts (l.peerURLs.headD "") = false →
      env.removeExec = .ok out →
      AEffect.memberRemove (natToHex l.id) ∈ (addOrPromoteLearner learner allHosts env).2 ∧
      AEffect.memberAdd nm true ∈ (addOrPromoteLearner learner allHosts env).2 ∧
      ∀ id, addMemberModel nm env.addExec env.addParsed = .ok id →
        (addOrPromoteLearner learner allHosts env).1 = .ok false) := by
  refine ⟨?_, ?_, ?_⟩
  · intro hlen
    cases hls : fetchLearnerMembers env.members2 with
    | nil => rw [hls] at hlen; simp at hlen
    | cons a rest =>
      cases rest with
      | nil => rw [hls] at hlen; simp at hlen
      | cons b rest2 =>
        exact addOrPromote_noMatch_handle_error learner allHosts env cid resp nm _
          h1 h2 h3 h4 hq (by rw [handleOther_multi allHosts env a b rest2 hls])
  · intro l hls hk
    exact addOrPromote_noMatch_handle_error learner allHosts env cid resp nm _
      h1 h2 h3 h4 hq (by rw [handleOther_one_known allHosts env l hls hk])
  · intro l out hls hk hrm
    have hh := handleOther_one_unknown allHosts env l out hls hk hrm
    have ha := addOrPromote_noMatch_handle_ok learner allHosts env cid resp nm
      h1 h2 h3 h4 hq (by rw [hh])
    rw [ha, hh]
    refine ⟨?_, ?_, ?_⟩
    · simp
    · simp
    · intro id hid
      simp [hid]

/-- Witness member list for C5: one voter elsewhere plus one never-started learner
at 10.0.0.99, an address matching no configured host. -/
def respC5 : MemberListResponse :=
  ⟨⟨1⟩, [⟨3, "m1", ["https://10.0.0.1:2380"], false⟩,
         ⟨9, "", ["https://10.0.0.99:2380"], true⟩]⟩

/-- Witness environment for C5. -/
def envC5 : AddEnv :=
  { containerID := some "abc", healthOk := true, members1 := some respC5
    learnerName := some "m2", promoteResult := .ok (), members2 := some respC5
    removeExec := .ok "", addExec := .ok "response", addParsed := some 12 }

/-- Witness learner host for C5. -/
def learnerC5 : Host :=
  ⟨"etcd-vm2", "m2", "10.0.0.2", "root", "pw", "", "", "/root/etcd.yaml"⟩

/-- Witness configured host for C5. -/
def hostC5 : Host :=
  ⟨"etcd-vm1", "m1", "10.0.0.1", "root", "pw", "", "", "/root/etcd.yaml"⟩

theorem C5_other_learner_policy_witness :
    AEffect.memberRemove (natToHex 9) ∈
      (addOrPromoteLearner learnerC5 [hostC5] envC5).2 ∧
    AEffect.memberAdd "m2" true ∈ (addOrPromoteLearner learnerC5 [hostC5] envC5).2 ∧
    (addOrPromoteLearner learnerC5 [hostC5] envC5).1 = .ok false := by
  have h := (C5_other_learner_policy learnerC5 [hostC5] envC5 "abc" respC5 "m2"
    rfl rfl rfl rfl rfl).2.2 ⟨9, "", ["https://10.0.0.99:2380"], true⟩ "" rfl rfl rfl
  exact ⟨h.1, h.2.1, h.2.2 12 rfl⟩

/-- Whether an `Except` result is a success. -/
def exceptIsOk {ε α : Type} : Except ε α → Bool
  | .ok _ => true
  | .error _ => false

/-- The observable outcome of the promotion retry loop: the final result, the
number of `member promote` attempts issued, and the list of sleep durations
(seconds) taken. -/
structure PromoteOutcome where
  result : Except String Unit
  attempts : Nat
  sleeps : List Nat

/-- The loop body of `AddMemberTask.promoteLearner` (add_member_task.go:425-439):
`results i` is the outcome of the `member promote` execution on attempt `i`
(in-sync errors and any other error look the same to the control flow — only the
log line differs); an attempt that fails sleeps 5 seconds and retries while fuel
remains; exhausted fuel produces the final wrap of the last error. -/
def promoteGo (results : Nat → Except String Unit) (lastErr : Option String)
    (attempt : Nat) : Nat → PromoteOutcome
  | 0 => ⟨.error ("failed to promote member after 50 attempts: " ++ lastErr.getD ""),
      attempt, []⟩
  | fuel + 1 =>
    match results attempt with
    | .ok _ => ⟨.ok (), attempt + 1, []⟩
    | .error e =>
      let rest := promoteGo results (some e) (attempt + 1) fuel
      ⟨rest.result, rest.attempts, 5 :: rest.sleeps⟩

/-- `AddMemberTask.promoteLearner` (add_member_task.go:418-442): `maxRetries = 50`,
`retryInterval = 5` seconds. -/
def promoteLearner (results : Nat → Except String Unit) : PromoteOutcome :=
  promoteGo results none 0 50

theorem promoteGo_attempts_le (r : Nat → Except String Unit) :
    ∀ (f a : Nat) (le : Option String),
      (promoteGo r le a f).attempts ≤ a + f := by
  intro f
  induction f with
  | zero => intro a le; simp [promoteGo]
  | succ f ih =>
    intro a le
    simp only [promoteGo]
    cases hr : r a with
    | ok v =>
      show a + 1 ≤ a + (f + 1)
      omega
    | error e =>
      have hih := ih (a + 1) (some e)
      show (promoteGo r (some e) (a + 1) f).attempts ≤ a + (f + 1)
      omega

theorem promoteGo_sleeps (r : Nat → Except String Unit) :
    ∀ (f a : Nat) (le : Option String),
      (∀ d ∈ (promoteGo r le a f).sleeps, d = 5) ∧
        (promoteGo r le a f).sleeps.length ≤ f := by
  intro f
  induction f with
  | zero => intro a le; simp [promoteGo]
  | succ f ih =>
    intro a le
    simp only [promoteGo]
    cases hr : r a with
    | ok v => simp
    | error e =>
      have := ih (a + 1) (some e)
      simp only [List.mem_cons, List.length_cons]
      constructor
      · intro d hd
        rcases hd with rfl | hd
        · rfl
        · exact this.1 d hd
      · omega

theorem promoteGo_ok_iff (r : Nat → Except String Unit) :
    ∀ (f a : Nat) (le : Option String),
      exceptIsOk (promoteGo r le a f).result = true ↔
        ∃ i, a ≤ i ∧ i < a + f ∧ exceptIsOk (r i) = true := by
  intro f
  induction f with
  | zero =>
    intro a le
    simp [promoteGo, exceptIsOk]
    omega
  | succ f ih =>
    intro a le
    simp only [promoteGo]
    cases hr : r a with
    | ok v =>
      constructor
      · intro hx
        exact ⟨a, le_refl a, by omega, by simp [hr, exceptIsOk]⟩
      · intro hx
        rfl
    | error e =>
      simp only []
      rw [ih (a + 1) (some e)]
      constructor
      · rintro ⟨i, hi1, hi2, hi3⟩
        exact ⟨i, by omega, by omega, hi3⟩
      · rintro ⟨i, hi1, hi2, hi3⟩
        refine ⟨i, ?_, by omega, hi3⟩
        rcases Nat.eq_or_lt_of_le hi1 with rfl | hlt
        · rw [hr] at hi3
          exact absurd hi3 (by simp [exceptIsOk])
        · omega

theorem promoteGo_all_fail (r : Nat → Except String Unit) :
    ∀ (f a : Nat) (le : Option String) (e : String),
      0 < f →
      (∀ i, a ≤ i → i < a + f → exceptIsOk (r i) = false) →
      r (a + f - 1) = .error e →
      (promoteGo r le a f).result =
        .error ("failed to promote member after 50 attempts: " ++ e) := by
  intro f
  induction f with
  | zero => intro a le e hf; omega
  | succ f ih =>
    intro a le e _ hall hlast
    simp only [promoteGo]
    cases hr : r a with
    | ok v =>
      have := hall a (le_refl a) (by omega)
      rw [hr] at this
      exact absurd this (by simp [exceptIsOk])
    | error e0 =>
      simp only []
      cases f with
      | zero =>
        have : a + 1 - 1 = a := by omega
        rw [this] at hlast
        rw [hr] at hlast
        obtain rfl : e0 = e := by
          injection hlast
        simp [promoteGo]
      | succ f2 =>
        have hge : a + (f2 + 1 + 1) - 1 = (a + 1) + (f2 + 1) - 1 := by omega
        exact ih (a + 1) (some e0) e (by omega)
          (fun i h1 h2 => hall i (by omega) (by omega)) (by rw [← hge]; exact hlast)

theorem promoteGo_attempts_pattern (r r2 : Nat → Except String Unit)
    (hsame : ∀ i, exceptIsOk (r i) = exceptIsOk (r2 i)) :
    ∀ (f a : Nat) (le le2 : Option String),
      (promoteGo r le a f).attempts = (promoteGo r2 le2 a f).attempts := by
  intro f
  induction f with
  | zero => intro a le le2; simp [promoteGo]
  | succ f ih =>
    intro a le le2
    simp only [promoteGo]
    have hs := hsame a
    cases hr : r a with
    | ok v =>
      cases hr2 : r2 a with
      | ok v2 => simp
      | error e2 =>
        rw [hr, hr2] at hs
        exact absurd hs (by simp [exceptIsOk])
    | error e =>
      cases hr2 : r2 a with
      | ok v2 =>
        rw [hr, hr2] at hs
        exact absurd hs (by simp [exceptIsOk])
      | error e2 =>
        simp only []
        exact ih (a + 1) (some e) (some e2)

/-- C8: the promotion retry loop issues at most 50 `member promote` attempts with a
5-second sleep after each failed one; it terminates with success exactly when some
attempt within the budget succeeds — retrying both the in-sync server error and any
other error, since the control flow depends only on whether each attempt succeeded,
never on the error's content — and when every attempt fails it surfaces an error
wrapping the last attempt's error. -/
theorem C8_promoteLearner_retry_budget (results : Nat → Except String Unit) :
    (promoteLearner results).attempts ≤ 50 ∧
    (∀ d ∈ (promoteLearner results).sleeps, d = 5) ∧
    (promoteLearner results).sleeps.length ≤ 50 ∧
    (exceptIsOk (promoteLearner results).result = true ↔
      ∃ i, i < 50 ∧ exceptIsOk (results i) = true) ∧
    ((∀ i, i < 50 → exceptIsOk (results i) = false) → ∀ e, results 49 = .error e →
      (promoteLearner results).result =
        .error ("failed to promote member after 50 attempts: " ++ e)) ∧
    (∀ results2, (∀ i, exceptIsOk (results i) = exceptIsOk (results2 i)) →
      (promoteLearner results).attempts = (promoteLearner results2).attempts) := by
  refine ⟨?_, (promoteGo_sleeps results 50 0 none).1, (promoteGo_sleeps results 50 0 none).2,
    ?_, ?_, ?_⟩
  · have := promoteGo_attempts_le results 50 0 none
    simpa using this
  · rw [promoteLearner, promoteGo_ok_iff results 50 0 none]
    constructor
    · rintro ⟨i, _, h2, h3⟩
      exact ⟨i, by omega, h3⟩
    · rintro ⟨i, h1, h2⟩
      exact ⟨i, by omega, by omega, h2⟩
  · intro hall e hlast
    exact promoteGo_all_fail results 50 0 none e (by omega)
      (fun i h1 h2 => hall i (by omega)) hlast
  · intro results2 hsame
    exact promoteGo_attempts_pattern results results2 hsame 50 0 none none

/-- Witness results for C8: the first three attempts hit the in-sync error, the
fourth succeeds. -/
def resultsC8 : Nat → Except String Unit :=
  fun i => if i < 3
    then .error "etcdserver: can only promote a learner member which is in sync with leader"
    else .ok ()

theorem C8_promoteLearner_retry_budget_witness :
    (promoteLearner resultsC8).attempts ≤ 50 ∧
      exceptIsOk (promoteLearner resultsC8).result = true := by
  have h := C8_promoteLearner_retry_budget resultsC8
  refine ⟨h.1, ?_⟩
  exact (h.2.2.2.1).mpr ⟨3, by omega, by rfl⟩

/-- One entry of the `etcdctl endpoint status -w json` array (`epStatus`,
add_member_task.go:497-500): the endpoint and its status' `Errors` list.  (The
model assumes each entry's `Status` is present, as the Go code does when it
dereferences `s.Resp.Errors`.) -/
structure EpStatus where
  endpoint : String
  errors : List String
deriving DecidableEq

/-- `validateClusterStatus` (add_member_task.go:502-519), applied to the parse
result of the JSON output: `none` models unparseable JSON (unmarshal error →
false); an empty array is unhealthy; otherwise every entry must have an empty
`Errors` list (`len(s.Resp.Errors) > 0` returns false). -/
def validateClusterStatus (parsed : Option (List EpStatus)) : Bool :=
  match parsed with
  | none => false
  | some l =>
    if l.length = 0 then false
    else l.all (fun s => s.errors.length == 0)

/-- The retry loop of `waitForClusterOrMemberStatusHealthy`
(add_member_task.go:361-376): `outs i` is attempt `i`'s result — `none` when the
etcdctl execution itself failed, `some p` when it produced output parsing to `p`;
each attempt succeeds iff `validateClusterStatus` accepts it; at most `fuel`
attempts run. -/
def waitHealthyGo (outs : Nat → Option (Option (List EpStatus))) (attempt : Nat) :
    Nat → Bool
  | 0 => false
  | fuel + 1 =>
    match outs attempt with
    | some parsed =>
      if validateClusterStatus parsed then true
      else waitHealthyGo outs (attempt + 1) fuel
    | none => waitHealthyGo outs (attempt + 1) fuel

/-- `AddMemberTask.waitForClusterOrMemberStatusHealthy` (add_member_task.go:352-379):
`maxRetries = 20`; on exhaustion the error names the probed scope. -/
def waitForClusterOrMemberStatusHealthy (cluster : Bool)
    (outs : Nat → Option (Option (List EpStatus))) : Except String Unit :=
  let msg := if cluster then "cluster" else "current member"
  if waitHealthyGo outs 0 20 then .ok ()
  else .error (msg ++ " did not become healthy after " ++ natToDec 20 ++ " attempts")

theorem waitHealthyGo_false (outs : Nat → Option (Option (List EpStatus))) :
    ∀ (f a : Nat),
      (∀ i, a ≤ i → i < a + f → ∀ p, outs i = some p → validateClusterStatus p = false) →
      waitHealthyGo outs a f = false := by
  intro f
  induction f with
  | zero => intro a _; rfl
  | succ f ih =>
    intro a hall
    simp only [waitHealthyGo]
    cases ho : outs a with
    | none => exact ih (a + 1) (fun i h1 h2 p hp => hall i (by omega) (by omega) p hp)
    | some parsed =>
      have hv := hall a (le_refl a) (by omega) parsed ho
      show (if validateClusterStatus parsed = true then true
        else waitHealthyGo outs (a + 1) f) = false
      rw [hv]
      simp only [Bool.false_eq_true, if_false, ite_false]
      exact ih (a + 1) (fun i h1 h2 p hp => hall i (by omega) (by omega) p hp)

/-- C10: the health predicate used by Add-Member is unhealthy on unparseable
endpoint-status JSON and on an empty status array — health demands at least one
endpoint entry, each with an empty `Errors` list, not the vacuous all-endpoints
condition — and while every attempt's output stays unparseable or empty the
health wait keeps retrying until its 20-attempt budget is exhausted and fails. -/
theorem C10_health_requires_nonempty_status :
    validateClusterStatus none = false ∧
    validateClusterStatus (some []) = false ∧
    (∀ l, validateClusterStatus (some l) = true ↔ l ≠ [] ∧ ∀ s ∈ l, s.errors = []) ∧
    (∀ (cluster : Bool) (outs : Nat → Option (Option (List EpStatus))),
      (∀ i, i < 20 → ∀ p, outs i = some p → validateClusterStatus p = false) →
      waitForClusterOrMemberStatusHealthy cluster outs =
        .error ((if cluster then "cluster" else "current member") ++
          " did not become healthy after " ++ natToDec 20 ++ " attempts")) := by
  refine ⟨rfl, rfl, ?_, ?_⟩
  · intro l
    cases l with
    | nil => simp [validateClusterStatus]
    | cons s rest =>
      simp only [validateClusterStatus, List.length_cons]
      rw [if_neg (by omega), List.all_eq_true]
      constructor
      · intro h
        refine ⟨by simp, ?_⟩
        intro x hx
        have hh := h x hx
        rwa [beq_iff_eq, List.length_eq_zero] at hh
      · rintro ⟨-, h⟩
        intro x hx
        rw [beq_iff_eq, List.length_eq_zero]
        exact h x hx
  · intro cluster outs hall
    have hw := waitHealthyGo_false outs 20 0 (fun i h1 h2 p hp => hall i (by omega) p hp)
    simp only [waitForClusterOrMemberStatusHealthy, hw, Bool.false_eq_true, if_false,
      ite_false]

/-- Witness for C10: a parseable single-endpoint array with an endpoint error is
unhealthy, and a loop whose attempts alternate between parse failures and empty
arrays fails after the budget. -/
theorem C10_health_requires_nonempty_status_witness :
    (validateClusterStatus (some [⟨"https://127.0.0.1:2379", []⟩]) = true) ∧
    waitForClusterOrMemberStatusHealthy true
        (fun i => if i % 2 = 0 then none else some (some [])) =
      .error ("cluster did not become healthy after " ++ natToDec 20 ++ " attempts") := by
  constructor
  · exact (C10_health_requires_nonempty_status.2.2.1 [⟨"https://127.0.0.1:2379", []⟩]).mpr
      ⟨by simp, by intro s hs; simp at hs; rw [hs]⟩
  · have h := C10_health_requires_nonempty_status.2.2.2 true
      (fun i => if i % 2 = 0 then none else some (some []))
      (by
        intro i hi p hp
        by_cases hpar : i % 2 = 0
        · simp [hpar] at hp
        · simp [hpar] at hp
          rw [← hp]
          rfl)
    simpa using h

/-! ## Best-member selection (src/unnamed/part_003) -/

/-- The maximum commit index folded over the probed hosts, starting from the
`maxCommitIndex` accumulator (Go initialises it to 0). -/
def commitFold (l : List (Host × Int)) (m : Int) : Int :=
  l.foldl (fun acc p => max acc p.2) m

instance : RightCommutative (fun (acc : Int) (p : Host × Int) => max acc p.2) :=
  ⟨fun b a1 a2 => by
    show max (max b a1.2) a2.2 = max (max b a2.2) a1.2
    rw [max_assoc, max_assoc, max_comm a1.2 a2.2]⟩

/-- The loop of `selectCommandFunc` (part_003:44-89) restricted to the hosts whose
probes succeed, each paired with its parsed commit index: a strictly larger index
resets `bestHosts` to that host, an equal index appends, a smaller one is
skipped. -/
def selectGo : List (Host × Int) → List Host → Int → List Host × Int
  | [], best, maxIdx => (best, maxIdx)
  | (h, idx) :: rest, best, maxIdx =>
    if maxIdx < idx then selectGo rest [h] idx
    else if idx = maxIdx then selectGo rest (best ++ [h]) maxIdx
    else selectGo rest best maxIdx

/-- `selectCommandFunc`'s accumulation (part_003:40-89): `bestHosts` starts empty
and `maxCommitIndex` at 0. -/
def selectBestHosts (l : List (Host × Int)) : List Host × Int :=
  selectGo l [] 0

theorem le_commitFold : ∀ (l : List (Host × Int)) (m : Int), m ≤ commitFold l m := by
  intro l
  induction l with
  | nil => intro m; exact le_refl m
  | cons p rest ih =>
    intro m
    calc m ≤ max m p.2 := le_max_left m p.2
    _ ≤ commitFold rest (max m p.2) := ih (max m p.2)

theorem commitFold_mem_le : ∀ (l : List (Host × Int)) (m : Int),
    ∀ p ∈ l, p.2 ≤ commitFold l m := by
  intro l
  induction l with
  | nil => intro m p hp; exact absurd hp (List.not_mem_nil p)
  | cons q rest ih =>
    intro m p hp
    rcases List.mem_cons.mp hp with rfl | hp2
    · calc p.2 ≤ max m p.2 := le_max_right m p.2
      _ ≤ commitFold rest (max m p.2) := le_commitFold rest (max m p.2)
    · exact ih (max m q.2) p hp2

theorem commitFold_attained : ∀ (l : List (Host × Int)) (m : Int),
    commitFold l m = m ∨ commitFold l m ∈ l.map Prod.snd := by
  intro l
  induction l with
  | nil => intro m; exact Or.inl rfl
  | cons q rest ih =>
    intro m
    rcases ih (max m q.2) with h | h
    · rcases le_or_lt q.2 m with hle | hlt
      · exact Or.inl (h.trans (max_eq_left hle))
      · refine Or.inr ?_
        rw [List.map_cons]
        exact List.mem_cons.mpr (Or.inl (h.trans (max_eq_right (le_of_lt hlt))))
    · refine Or.inr ?_
      rw [List.map_cons]
      exact List.mem_cons.mpr (Or.inr h)

theorem selectGo_spec : ∀ (l : List (Host × Int)) (best : List Host) (m : Int),
    selectGo l best m =
      ((if commitFold l m = m then best else []) ++
        (l.filter (fun p => p.2 == commitFold l m)).map Prod.fst,
       commitFold l m) := by
  intro l
  induction l with
  | nil => intro best m; simp [selectGo, commitFold]
  | cons q rest ih =>
    intro best m
    obtain ⟨h, idx⟩ := q
    have hfold : commitFold ((h, idx) :: rest) m = commitFold rest (max m idx) := rfl
    rcases lt_trichotomy m idx with hlt | heq | hgt
    · have hmax : max m idx = idx := max_eq_right (le_of_lt hlt)
      have hge : idx ≤ commitFold rest idx := le_commitFold rest idx
      have hne : commitFold rest idx ≠ m := by omega
      show selectGo ((h, idx) :: rest) best m = _
      rw [show selectGo ((h, idx) :: rest) best m = selectGo rest [h] idx by
        simp [selectGo, hlt]]
      rw [ih [h] idx, hfold, hmax]
      rw [if_neg hne]
      by_cases hc : idx = commitFold rest idx
      · rw [if_pos hc.symm]
        rw [List.filter_cons_of_pos (by simpa using hc)]
        simp
      · rw [if_neg (fun hx => hc hx.symm)]
        rw [List.filter_cons_of_neg (by simpa using hc)]
    · subst heq
      have hmax : max m m = m := max_self m
      have hnlt : ¬ m < m := lt_irrefl m
      show selectGo ((h, m) :: rest) best m = _
      rw [show selectGo ((h, m) :: rest) best m = selectGo rest (best ++ [h]) m by
        simp [selectGo, hnlt]]
      rw [ih (best ++ [h]) m, hfold, hmax]
      by_cases hc : commitFold rest m = m
      · rw [if_pos hc, if_pos hc]
        rw [List.filter_cons_of_pos (by simpa using hc.symm)]
        simp
      · rw [if_neg hc, if_neg hc]
        rw [List.filter_cons_of_neg (by simpa using fun hx => hc hx.symm)]
    · have hmax : max m idx = m := max_eq_left (le_of_lt hgt)
      have hge : m ≤ commitFold rest m := le_commitFold rest m
      have hne : idx ≠ commitFold rest m := by omega
      have hnlt : ¬ m < idx := by omega
      have hneq : ¬ idx = m := by omega
      show selectGo ((h, idx) :: rest) best m = _
      rw [show selectGo ((h, idx) :: rest) best m = selectGo rest best m by
        simp [selectGo, hnlt, hneq]]
      rw [ih best m, hfold, hmax]
      rw [List.filter_cons_of_neg (by simpa using hne)]

/-- C9: over the successfully probed hosts (each with its parsed commit index —
non-negative, as the sidecar's contract guarantees), the select command's
accumulation reports exactly the hosts whose commit index equals the final
maximum: its host list is the in-order filter of the hosts tying for the final
index, that index is attained by some probed host and bounds every probed
host's index, and probing the hosts in any other order yields the same index
and a permutation of the same tied set. -/
theorem C9_select_reports_ties (l : List (Host × Int)) :
    (selectBestHosts l).1 =
      (l.filter (fun p => p.2 == (selectBestHosts l).2)).map Prod.fst ∧
    ((∀ p ∈ l, 0 ≤ p.2) → l ≠ [] →
      (selectBestHosts l).2 ∈ l.map Prod.snd ∧
        ∀ p ∈ l, p.2 ≤ (selectBestHosts l).2) ∧
    (∀ l2, l.Perm l2 →
      (selectBestHosts l).2 = (selectBestHosts l2).2 ∧
      (selectBestHosts l).1.Perm (selectBestHosts l2).1) := by
  have hs := selectGo_spec l [] 0
  have hfst : (selectBestHosts l).1 =
      (l.filter (fun p => p.2 == commitFold l 0)).map Prod.fst := by
    rw [selectBestHosts, hs]
    by_cases h0 : commitFold l 0 = 0
    · rw [if_pos h0]; rfl
    · rw [if_neg h0]; rfl
  have hsnd : (selectBestHosts l).2 = commitFold l 0 := by
    rw [selectBestHosts, hs]
  refine ⟨?_, ?_, ?_⟩
  · rw [hsnd, hfst]
  · intro hnn hne
    refine ⟨?_, ?_⟩
    · rw [hsnd]
      rcases commitFold_attained l 0 with h | h
      · cases l with
        | nil => exact absurd rfl hne
        | cons q rest =>
          have hq0 : q.2 ≤ commitFold (q :: rest) 0 :=
            commitFold_mem_le _ 0 q (List.mem_cons_self q rest)
          have hq1 : 0 ≤ q.2 := hnn q (List.mem_cons_self q rest)
          have hq2 : q.2 = commitFold (q :: rest) 0 := by omega
          rw [List.map_cons]
          exact List.mem_cons.mpr (Or.inl hq2.symm)
      · exact h
    · intro p hp
      rw [hsnd]
      exact commitFold_mem_le l 0 p hp
  · intro l2 hp2
    have hF : commitFold l 0 = commitFold l2 0 := hp2.foldl_eq 0
    have hsnd2 : (selectBestHosts l2).2 = commitFold l2 0 := by
      rw [selectBestHosts, selectGo_spec l2 [] 0]
    have hfst2 : (selectBestHosts l2).1 =
        (l2.filter (fun p => p.2 == commitFold l2 0)).map Prod.fst := by
      rw [selectBestHosts, selectGo_spec l2 [] 0]
      by_cases h0 : commitFold l2 0 = 0
      · rw [if_pos h0]; rfl
      · rw [if_neg h0]; rfl
    refine ⟨by rw [hsnd, hsnd2, hF], ?_⟩
    rw [hfst, hfst2, ← hF]
    exact (hp2.filter _).map Prod.fst

/-- Witness host list for C9: H1 and H2 tie at commit index 120, H3 trails. -/
def probesC9 : List (Host × Int) :=
  [(⟨"H1", "", "10.0.0.1", "root", "pw", "", "", "/root/etcd.yaml"⟩, 120),
   (⟨"H2", "", "10.0.0.2", "root", "pw", "", "", "/root/etcd.yaml"⟩, 120),
   (⟨"H3", "", "10.0.0.3", "root", "pw", "", "", "/root/etcd.yaml"⟩, 115)]

theorem C9_select_reports_ties_witness :
    (selectBestHosts probesC9).2 ∈ probesC9.map Prod.snd ∧
      ∀ p ∈ probesC9, p.2 ≤ (selectBestHosts probesC9).2 :=
  (C9_select_reports_ties probesC9).2.1 (by decide) (by decide)

/-! ## SSH auth configuration (src/pkg/ssh/auth.go, src/unnamed/part_007) -/

/-- An `ssh.AuthMethod` as `configureAuth` builds it: password auth or public-key
auth from a loaded signer. -/
inductive AuthMethod where
  | password (pw : String)
  | publicKey (signer : String)
deriving DecidableEq

/-- `configureAuth` (auth.go:17-24).  `loadSigner` stands for
`getSigner` (reading and parsing the key file, auth.go:45-60).  A non-empty
password selects password auth outright — the private key is never consulted;
only when both credentials are empty does it fail. -/
def configureAuth (password privateKeyFile passphrase : String)
    (loadSigner : String → String → Except String String) :
    Except String (List AuthMethod) :=
  if password ≠ "" then .ok [.password password]
  else if privateKeyFile ≠ "" then
    match loadSigner privateKeyFile passphrase with
    | .error e => .error e
    | .ok s => .ok [.publicKey s]
  else .error "no private key/password found to configure SSH auth"

/-- `config.ParseHostFromFile` (part_007:29-41), given the result of reading and
JSON-unmarshalling the hosts file: the parsed hosts are returned as-is — the
function performs no validation of any field. -/
def parseHostFromFile (parsed : Option (List Host)) : Except String (List Host) :=
  match parsed with
  | none => .error "unmarshal json failed"
  | some hosts => .ok hosts

/-- A hosts-file entry supplying both a password and a private key. -/
def cexHostC7 : Host :=
  ⟨"etcd-vm1", "", "10.0.0.1", "root", "changeme", "/root/.ssh/id_rsa", "", "/root/etcd.yaml"⟩

/-- C7: the claim says an entry with both `password` and `private_key` is a
configuration error reported before any remote work.  The code has no such
check: the hosts-file parser accepts the entry verbatim, and `configureAuth`
(with both credentials non-empty) silently selects password auth — it returns
successfully instead of an error, ignoring the private key. -/
theorem C7_counterexample :
    parseHostFromFile (some [cexHostC7]) = .ok [cexHostC7] ∧
      configureAuth cexHostC7.password cexHostC7.privateKey cexHostC7.passphrase
        (fun _ _ => .ok "signer") = .ok [.password "changeme"] := by
  exact ⟨rfl, rfl⟩

/-- C7 (amended): neither the hosts-file parser nor auth configuration rejects an
entry carrying both credentials: parsing performs no validation, and any
non-empty password selects password auth with the private key ignored (the
signer loader is never consulted); a configuration error is reported only when
both credentials are empty. -/
theorem C7_both_credentials_not_rejected (password privateKeyFile passphrase : String)
    (loadSigner loadSigner2 : String → String → Except String String)
    (hosts : List Host) :
    (password ≠ "" →
      configureAuth password privateKeyFile passphrase loadSigner =
        .ok [.password password] ∧
      configureAuth password privateKeyFile passphrase loadSigner =
        configureAuth password privateKeyFile passphrase loadSigner2) ∧
    (configureAuth "" "" passphrase loadSigner =
      .error "no private key/password found to configure SSH auth") ∧
    parseHostFromFile (some hosts) = .ok hosts := by
  refine ⟨?_, ?_, rfl⟩
  · intro hpw
    rw [configureAuth, if_pos hpw, configureAuth, if_pos hpw]
    exact ⟨rfl, rfl⟩
  · rw [configureAuth, if_neg (by simp), if_neg (by simp)]

theorem C7_both_credentials_not_rejected_witness :
    configureAuth "changeme" "/root/.ssh/id_rsa" "" (fun _ _ => .ok "signer") =
      .ok [.password "changeme"] :=
  ((C7_both_credentials_not_rejected "changeme" "/root/.ssh/id_rsa" ""
    (fun _ _ => .ok "signer") (fun _ _ => .error "unused") []).1 (by decide)).1

theorem C1_commandAttempt_success_witness :
    commandAttempt (some ⟨0, "", "", 0, 0⟩) (.ok "healthy") = some "healthy" :=
  (C1_commandAttempt_success ⟨0, "", "", 0, 0⟩ (.ok "healthy") "healthy").mpr
    ⟨rfl, by decide, rfl, fun h => absurd rfl h, fun h => absurd rfl h⟩
